import Mathlib

/-!
Verification of `compressai/transforms/functional.py`: RGB <-> YCbCr colour
conversion and 4:4:4 <-> 4:2:0 chroma resampling over torch tensors.

A torch tensor is modelled as a flat row-major list of exact rationals
together with its shape and a floating-point flag; the float literals of the
source are read exactly as rationals, so all value-level statements are about
exact (real/rational) arithmetic, which is the semantics the round-trip and
range properties of the specification refer to.
-/

/-- A torch tensor: dtype floating-point flag, shape, and the elements in
flat row-major order. -/
structure Tensor where
  isFloat : Bool
  shape : List Nat
  data : List ℚ
deriving DecidableEq

/-- Element of a tensor at flat row-major index `k` (0 outside the stored
range; every access in this development is in range). -/
def Tensor.elt (t : Tensor) (k : Nat) : ℚ := t.data.getD k 0

/-- Well-formedness: the flat data has exactly one element per index of the
shape. -/
def Tensor.wf (t : Tensor) : Prop := t.data.length = t.shape.prod

instance (t : Tensor) : Decidable t.wf :=
  inferInstanceAs (Decidable (t.data.length = t.shape.prod))

/-- Build a tensor of shape `sh` whose element at flat index `k` is `f k`. -/
def tensorOfFn (fl : Bool) (sh : List Nat) (f : Nat → ℚ) : Tensor :=
  ⟨fl, sh, (List.range sh.prod).map f⟩

/-- Elementwise unary operation (same shape and dtype as the input). -/
def Tensor.emap (t : Tensor) (f : ℚ → ℚ) : Tensor :=
  tensorOfFn t.isFloat t.shape fun k => f (t.elt k)

/-- Elementwise binary operation on two same-shaped tensors (shape and dtype
taken from the first operand). -/
def Tensor.emap2 (s t : Tensor) (f : ℚ → ℚ → ℚ) : Tensor :=
  tensorOfFn s.isFloat s.shape fun k => f (s.elt k) (t.elt k)

/-- Scalar times tensor, `a * t` in the source. -/
def Tensor.smul (t : Tensor) (a : ℚ) : Tensor := t.emap fun x => a * x

/-- Tensor addition `s + t`. -/
def Tensor.add (s t : Tensor) : Tensor := Tensor.emap2 s t fun x y => x + y

/-- Tensor subtraction `s - t`. -/
def Tensor.sub (s t : Tensor) : Tensor := Tensor.emap2 s t fun x y => x - y

/-- Tensor divided by a scalar, `t / a`. -/
def Tensor.divC (t : Tensor) (a : ℚ) : Tensor := t.emap fun x => x / a

/-- Tensor plus a scalar, `t + a`. -/
def Tensor.addC (t : Tensor) (a : ℚ) : Tensor := t.emap fun x => x + a

/-- Tensor minus a scalar, `t - a`. -/
def Tensor.subC (t : Tensor) (a : ℚ) : Tensor := t.emap fun x => x - a

/-- A Python exception as raised by this module (`ValueError` with a
message; the specification calls the two uses `InvalidShape` and
`InvalidTriple`). -/
inductive PyErr where
  | valueError (msg : String)
deriving DecidableEq

/-- The weight triple `YCBCR_WEIGHTS["ITU-R_BT.709"] = (0.2126, 0.7152,
0.0722)`, the only entry of the module's `YCBCR_WEIGHTS` table, with the
float literals read exactly as rationals. -/
def YCBCR_WEIGHTS_BT709 : ℚ × ℚ × ℚ := (2126/10000, 7152/10000, 722/10000)

/-- `Kr` of ITU-R BT.709 as unpacked by the conversion functions. -/
def Kr : ℚ := YCBCR_WEIGHTS_BT709.1

/-- `Kg` of ITU-R BT.709 as unpacked by the conversion functions. -/
def Kg : ℚ := YCBCR_WEIGHTS_BT709.2.1

/-- `Kb` of ITU-R BT.709 as unpacked by the conversion functions. -/
def Kb : ℚ := YCBCR_WEIGHTS_BT709.2.2

/-- The module's input validator `_check_input_tensor`: raises `ValueError`
(the specification's `InvalidShape`) unless the argument is a floating-point
tensor of rank 3 or 4 whose axis `-3` has size 3.  The `isinstance` clause of
the source is subsumed by the argument type of the embedding. -/
def _check_input_tensor (tensor : Tensor) : Except PyErr Unit :=
  if !tensor.isFloat
      || !(tensor.shape.length == 3 || tensor.shape.length == 4)
      || !(tensor.shape.getD (tensor.shape.length - 3) 0 == 3) then
    Except.error (PyErr.valueError "Expected a 4D tensor with shape (Nx3xHxW) as input")
  else
    Except.ok ()

/-- Chunk `c` of `torch.chunk(t, 3, dim)` for a tensor whose size along axis
`dim` is 3 (the only way the source calls it, guaranteed by the validator
resp. the packed-tensor layout), so each chunk has size 1 along `dim`.
Negative source dims are passed here already resolved
(`-3` becomes `t.shape.length - 3`). -/
def chunkOf3 (t : Tensor) (dim : Nat) (c : Nat) : Tensor :=
  tensorOfFn t.isFloat (t.shape.set dim 1) fun k =>
    t.elt (k / (t.shape.drop (dim + 1)).prod * (3 * (t.shape.drop (dim + 1)).prod)
      + c * (t.shape.drop (dim + 1)).prod + k % (t.shape.drop (dim + 1)).prod)

/-- `torch.cat((a, b, c), dim)` for three equally shaped tensors of size 1
along axis `dim` (the only way the source calls it), producing size 3 along
`dim`. -/
def cat3 (dim : Nat) (a b c : Tensor) : Tensor :=
  tensorOfFn a.isFloat (a.shape.set dim 3) fun k =>
    if k / (a.shape.drop (dim + 1)).prod % 3 = 0 then
      a.elt (k / (a.shape.drop (dim + 1)).prod / 3 * (a.shape.drop (dim + 1)).prod
        + k % (a.shape.drop (dim + 1)).prod)
    else if k / (a.shape.drop (dim + 1)).prod % 3 = 1 then
      b.elt (k / (a.shape.drop (dim + 1)).prod / 3 * (a.shape.drop (dim + 1)).prod
        + k % (a.shape.drop (dim + 1)).prod)
    else
      c.elt (k / (a.shape.drop (dim + 1)).prod / 3 * (a.shape.drop (dim + 1)).prod
        + k % (a.shape.drop (dim + 1)).prod)

/-- `rgb2ycbcr`: RGB to YCbCr conversion with the ITU-R BT.709
coefficients. -/
def rgb2ycbcr (rgb : Tensor) : Except PyErr Tensor :=
  match _check_input_tensor rgb with
  | Except.error e => Except.error e
  | Except.ok _ =>
    let dim := rgb.shape.length - 3
    let r := chunkOf3 rgb dim 0
    let g := chunkOf3 rgb dim 1
    let b := chunkOf3 rgb dim 2
    let y := ((r.smul Kr).add (g.smul Kg)).add (b.smul Kb)
    let cb := (((b.sub y).smul (1/2)).divC (1 - Kb)).addC (1/2)
    let cr := (((r.sub y).smul (1/2)).divC (1 - Kr)).addC (1/2)
    Except.ok (cat3 dim y cb cr)

/-- `ycbcr2rgb`: YCbCr to RGB conversion with the ITU-R BT.709
coefficients. -/
def ycbcr2rgb (ycbcr : Tensor) : Except PyErr Tensor :=
  match _check_input_tensor ycbcr with
  | Except.error e => Except.error e
  | Except.ok _ =>
    let dim := ycbcr.shape.length - 3
    let y := chunkOf3 ycbcr dim 0
    let cb := chunkOf3 ycbcr dim 1
    let cr := chunkOf3 ycbcr dim 2
    let r := y.add ((cr.subC (1/2)).smul (2 - 2 * Kr))
    let b := y.add ((cb.subC (1/2)).smul (2 - 2 * Kb))
    let g := ((y.sub (r.smul Kr)).sub (b.smul Kb)).divC Kg
    Except.ok (cat3 dim r g b)

/-- `F.avg_pool2d(t, kernel_size=2, stride=2)`: non-overlapping 2x2 mean
over the last two axes; odd extents are floor-truncated. -/
def avg_pool2d_2 (t : Tensor) : Tensor :=
  tensorOfFn t.isFloat
    (t.shape.take (t.shape.length - 2)
      ++ [t.shape.getD (t.shape.length - 2) 0 / 2, t.shape.getD (t.shape.length - 1) 0 / 2])
    fun k =>
      let H := t.shape.getD (t.shape.length - 2) 0
      let W := t.shape.getD (t.shape.length - 1) 0
      let o := k / (H / 2 * (W / 2))
      let r := k % (H / 2 * (W / 2))
      let i := r / (W / 2)
      let j := r % (W / 2)
      (t.elt (o * (H * W) + 2 * i * W + 2 * j)
        + t.elt (o * (H * W) + 2 * i * W + (2 * j + 1))
        + t.elt (o * (H * W) + (2 * i + 1) * W + 2 * j)
        + t.elt (o * (H * W) + (2 * i + 1) * W + (2 * j + 1))) / 4

/-- Source coordinate sampled for output index `i` by PyTorch bilinear
interpolation with `align_corners=False` and scale factor 2:
`(i + 0.5) / 2 - 0.5`, clamped below at 0. -/
def srcIndex (i : Nat) : ℚ := max 0 (((i : ℚ) + 1/2) / 2 - 1/2)

/-- Floor of a nonnegative rational as a natural number. -/
def qfloorNat (q : ℚ) : Nat := q.num.toNat / q.den

/-- `F.interpolate(t, scale_factor=2, mode="bilinear", align_corners=False)`:
doubles the last two axes, sampling with the half-pixel-centre convention and
edge clamping. -/
def interpolate2 (t : Tensor) : Tensor :=
  tensorOfFn t.isFloat
    (t.shape.take (t.shape.length - 2)
      ++ [2 * t.shape.getD (t.shape.length - 2) 0, 2 * t.shape.getD (t.shape.length - 1) 0])
    fun k =>
      let H := t.shape.getD (t.shape.length - 2) 0
      let W := t.shape.getD (t.shape.length - 1) 0
      let o := k / (2 * H * (2 * W))
      let r := k % (2 * H * (2 * W))
      let i := r / (2 * W)
      let j := r % (2 * W)
      let si := srcIndex i
      let sj := srcIndex j
      let i0 := qfloorNat si
      let j0 := qfloorNat sj
      let i1 := min (i0 + 1) (H - 1)
      let j1 := min (j0 + 1) (W - 1)
      let li : ℚ := si - (i0 : ℚ)
      let lj : ℚ := sj - (j0 : ℚ)
      (1 - li) * ((1 - lj) * t.elt (o * (H * W) + i0 * W + j0)
          + lj * t.elt (o * (H * W) + i0 * W + j1))
        + li * ((1 - lj) * t.elt (o * (H * W) + i1 * W + j0)
          + lj * t.elt (o * (H * W) + i1 * W + j1))

/-- Input of `yuv_444_to_420`: either a single packed tensor or an explicit
(Y, U, V) triple of tensors. -/
inductive YUVIn where
  | packed (t : Tensor)
  | triple (y u v : Tensor)
deriving DecidableEq

/-- `yuv_444_to_420`: convert a 4:4:4 input to a 4:2:0 triple — the luma
plane passes through unchanged, each chroma plane is downsampled by
`avg_pool2d` with kernel 2, stride 2.  A packed tensor is first split by
`chunk(3, 1)`. -/
def yuv_444_to_420 (yuv : YUVIn) : Tensor × Tensor × Tensor :=
  match yuv with
  | YUVIn.packed t =>
    (chunkOf3 t 1 0, avg_pool2d_2 (chunkOf3 t 1 1), avg_pool2d_2 (chunkOf3 t 1 2))
  | YUVIn.triple y u v => (y, avg_pool2d_2 u, avg_pool2d_2 v)

/-- An element of the collection handed to `yuv_420_to_444`: a torch tensor
or some non-tensor value such as a plain number. -/
inductive Val where
  | tens (t : Tensor)
  | num (q : ℚ)
deriving DecidableEq

/-- `isinstance(c, torch.Tensor)` for a collection element. -/
def Val.isTensor : Val → Bool
  | Val.tens _ => true
  | Val.num _ => false

/-- Result of `yuv_420_to_444`: a single concatenated tensor or a triple of
plane tensors, depending on `return_tuple`. -/
inductive Out444 where
  | single (t : Tensor)
  | triple (y u v : Tensor)
deriving DecidableEq

/-- `yuv_420_to_444`: raises `ValueError` (the specification's
`InvalidTriple`) unless the input is exactly three tensors; otherwise the
luma plane passes through unchanged, the chroma planes are upsampled by
bilinear interpolation with scale factor 2, and the result is returned as a
triple when `return_tuple` is true, else concatenated along axis 1. -/
def yuv_420_to_444 (yuv : List Val) (return_tuple : Bool) : Except PyErr Out444 :=
  if yuv.length != 3 || yuv.any fun c => ! c.isTensor then
    Except.error (PyErr.valueError "Expected a tuple of 3 torch tensors")
  else
    match yuv with
    | [Val.tens y, Val.tens u, Val.tens v] =>
      let u2 := interpolate2 u
      let v2 := interpolate2 v
      if return_tuple then Except.ok (Out444.triple y u2 v2)
      else Except.ok (Out444.single (cat3 1 y u2 v2))
    | _ => Except.error (PyErr.valueError "Expected a tuple of 3 torch tensors")

/-- The YCbCr plane produced by `rgb2ycbcr` for channel `c` from input
planes `R`, `G`, `B`: exactly the arithmetic of the source
(`y`, `cb`, `cr` lines). -/
def ycbcrFormula (R G B : ℚ) (c : Nat) : ℚ :=
  if c = 0 then Kr * R + Kg * G + Kb * B
  else if c = 1 then 1/2 * (B - (Kr * R + Kg * G + Kb * B)) / (1 - Kb) + 1/2
  else 1/2 * (R - (Kr * R + Kg * G + Kb * B)) / (1 - Kr) + 1/2

/-- The RGB plane produced by `ycbcr2rgb` for channel `c` from input planes
`Y`, `CB`, `CR`: exactly the arithmetic of the source (`r`, `g`, `b`
lines, with the computed `r` and `b` substituted into the `g` line). -/
def rgbFormula (Y CB CR : ℚ) (c : Nat) : ℚ :=
  if c = 0 then Y + (2 - 2 * Kr) * (CR - 1/2)
  else if c = 1 then
    (Y - Kr * (Y + (2 - 2 * Kr) * (CR - 1/2)) - Kb * (Y + (2 - 2 * Kb) * (CB - 1/2))) / Kg
  else Y + (2 - 2 * Kb) * (CB - 1/2)

/-! Basic lemmas about the tensor model. -/

@[simp] theorem emap_isFloat (t : Tensor) (f : ℚ → ℚ) :
    (t.emap f).isFloat = t.isFloat := rfl

@[simp] theorem emap2_isFloat (s t : Tensor) (f : ℚ → ℚ → ℚ) :
    (Tensor.emap2 s t f).isFloat = s.isFloat := rfl

@[simp] theorem smul_isFloat (t : Tensor) (a : ℚ) : (t.smul a).isFloat = t.isFloat := rfl

@[simp] theorem add_isFloat (s t : Tensor) : (s.add t).isFloat = s.isFloat := rfl

@[simp] theorem sub_isFloat (s t : Tensor) : (s.sub t).isFloat = s.isFloat := rfl

@[simp] theorem divC_isFloat (t : Tensor) (a : ℚ) : (t.divC a).isFloat = t.isFloat := rfl

@[simp] theorem addC_isFloat (t : Tensor) (a : ℚ) : (t.addC a).isFloat = t.isFloat := rfl

@[simp] theorem subC_isFloat (t : Tensor) (a : ℚ) : (t.subC a).isFloat = t.isFloat := rfl

@[simp] theorem chunkOf3_isFloat (t : Tensor) (dim c : Nat) :
    (chunkOf3 t dim c).isFloat = t.isFloat := rfl

@[simp] theorem cat3_isFloat (dim : Nat) (a b c : Tensor) :
    (cat3 dim a b c).isFloat = a.isFloat := rfl

@[simp] theorem tensorOfFn_isFloat (fl : Bool) (sh : List Nat) (f : Nat → ℚ) :
    (tensorOfFn fl sh f).isFloat = fl := rfl

@[simp] theorem tensorOfFn_shape (fl : Bool) (sh : List Nat) (f : Nat → ℚ) :
    (tensorOfFn fl sh f).shape = sh := rfl

@[simp] theorem tensorOfFn_length (fl : Bool) (sh : List Nat) (f : Nat → ℚ) :
    (tensorOfFn fl sh f).data.length = sh.prod := by
  simp [tensorOfFn]

theorem tensorOfFn_wf (fl : Bool) (sh : List Nat) (f : Nat → ℚ) :
    (tensorOfFn fl sh f).wf := by
  simp [Tensor.wf]

theorem tensorOfFn_elt (fl : Bool) (sh : List Nat) (f : Nat → ℚ) (k : Nat)
    (hk : k < sh.prod) : (tensorOfFn fl sh f).elt k = f k := by
  unfold tensorOfFn Tensor.elt
  rw [List.getD_eq_getElem _ _ (by simpa using hk), List.getElem_map, List.getElem_range]

theorem elt_eq_getElem (t : Tensor) (k : Nat) (hk : k < t.data.length) :
    t.elt k = t.data[k] := List.getD_eq_getElem t.data 0 hk

@[simp] theorem emap_shape (t : Tensor) (f : ℚ → ℚ) : (t.emap f).shape = t.shape := rfl

@[simp] theorem emap2_shape (s t : Tensor) (f : ℚ → ℚ → ℚ) :
    (Tensor.emap2 s t f).shape = s.shape := rfl

@[simp] theorem smul_shape (t : Tensor) (a : ℚ) : (t.smul a).shape = t.shape := rfl

@[simp] theorem add_shape (s t : Tensor) : (s.add t).shape = s.shape := rfl

@[simp] theorem sub_shape (s t : Tensor) : (s.sub t).shape = s.shape := rfl

@[simp] theorem divC_shape (t : Tensor) (a : ℚ) : (t.divC a).shape = t.shape := rfl

@[simp] theorem addC_shape (t : Tensor) (a : ℚ) : (t.addC a).shape = t.shape := rfl

@[simp] theorem subC_shape (t : Tensor) (a : ℚ) : (t.subC a).shape = t.shape := rfl

@[simp] theorem chunkOf3_shape (t : Tensor) (dim c : Nat) :
    (chunkOf3 t dim c).shape = t.shape.set dim 1 := rfl

@[simp] theorem cat3_shape (dim : Nat) (a b c : Tensor) :
    (cat3 dim a b c).shape = a.shape.set dim 3 := rfl

theorem emap_elt (t : Tensor) (f : ℚ → ℚ) (k : Nat) (hk : k < t.shape.prod) :
    (t.emap f).elt k = f (t.elt k) := tensorOfFn_elt _ _ _ _ hk

theorem emap2_elt (s t : Tensor) (f : ℚ → ℚ → ℚ) (k : Nat) (hk : k < s.shape.prod) :
    (Tensor.emap2 s t f).elt k = f (s.elt k) (t.elt k) := tensorOfFn_elt _ _ _ _ hk

theorem smul_elt (t : Tensor) (a : ℚ) (k : Nat) (hk : k < t.shape.prod) :
    (t.smul a).elt k = a * t.elt k := emap_elt _ _ _ hk

theorem add_elt (s t : Tensor) (k : Nat) (hk : k < s.shape.prod) :
    (s.add t).elt k = s.elt k + t.elt k := emap2_elt _ _ _ _ hk

theorem sub_elt (s t : Tensor) (k : Nat) (hk : k < s.shape.prod) :
    (s.sub t).elt k = s.elt k - t.elt k := emap2_elt _ _ _ _ hk

theorem divC_elt (t : Tensor) (a : ℚ) (k : Nat) (hk : k < t.shape.prod) :
    (t.divC a).elt k = t.elt k / a := emap_elt _ _ _ hk

theorem addC_elt (t : Tensor) (a : ℚ) (k : Nat) (hk : k < t.shape.prod) :
    (t.addC a).elt k = t.elt k + a := emap_elt _ _ _ hk

theorem subC_elt (t : Tensor) (a : ℚ) (k : Nat) (hk : k < t.shape.prod) :
    (t.subC a).elt k = t.elt k - a := emap_elt _ _ _ hk

/-! Index arithmetic for row-major flattening. -/

theorem comp_div (o i inner : Nat) (hi : i < inner) : (o * inner + i) / inner = o := by
  rw [mul_comm, Nat.mul_add_div ((Nat.zero_le i).trans_lt hi), Nat.div_eq_of_lt hi,
    Nat.add_zero]

theorem comp_mod (o i inner : Nat) (hi : i < inner) : (o * inner + i) % inner = i := by
  rw [mul_comm, Nat.mul_add_mod, Nat.mod_eq_of_lt hi]

theorem mul_bound (c i b B : Nat) (hc : c < B) (hi : i < b) : c * b + i < B * b := by
  calc c * b + i < c * b + b := by omega
  _ = (c + 1) * b := by ring
  _ ≤ B * b := Nat.mul_le_mul_right b (by omega)

theorem index_decomp3 (k outer inner : Nat) (hk : k < outer * (3 * inner)) :
    ∃ o c i, o < outer ∧ c < 3 ∧ i < inner ∧ k = o * (3 * inner) + c * inner + i := by
  have hpos : 0 < inner := by
    rcases Nat.eq_zero_or_pos inner with h | h
    · subst h; simp at hk
    · exact h
  have hpos3 : 0 < 3 * inner := by omega
  refine ⟨k / (3 * inner), k % (3 * inner) / inner, k % inner, ?_, ?_, Nat.mod_lt _ hpos, ?_⟩
  · exact Nat.div_lt_of_lt_mul (by rwa [mul_comm] at hk)
  · exact Nat.div_lt_of_lt_mul (by
      have := Nat.mod_lt k hpos3
      omega)
  · have h1 := Nat.div_add_mod k (3 * inner)
    have h2 := Nat.div_add_mod (k % (3 * inner)) inner
    have h3 : k % (3 * inner) % inner = k % inner :=
      Nat.mod_mod_of_dvd k (dvd_mul_left inner 3)
    calc k = 3 * inner * (k / (3 * inner)) + k % (3 * inner) := h1.symm
    _ = 3 * inner * (k / (3 * inner)) + (inner * (k % (3 * inner) / inner)
        + k % (3 * inner) % inner) := by rw [h2]
    _ = k / (3 * inner) * (3 * inner) + k % (3 * inner) / inner * inner + k % inner := by
        rw [h3]; ring

theorem index_decomp2 (k outer inner : Nat) (hk : k < outer * inner) :
    ∃ o i, o < outer ∧ i < inner ∧ k = o * inner + i := by
  have hpos : 0 < inner := by
    rcases Nat.eq_zero_or_pos inner with h | h
    · subst h; simp at hk
    · exact h
  refine ⟨k / inner, k % inner, Nat.div_lt_of_lt_mul (by rwa [mul_comm] at hk),
    Nat.mod_lt _ hpos, ?_⟩
  calc k = inner * (k / inner) + k % inner := (Nat.div_add_mod k inner).symm
  _ = k / inner * inner + k % inner := by ring

theorem Tensor.ext_elt (s t : Tensor) (hf : s.isFloat = t.isFloat)
    (hsh : s.shape = t.shape) (hl : s.data.length = t.data.length)
    (he : ∀ k, k < s.data.length → s.elt k = t.elt k) : s = t := by
  cases s with
  | mk sf ssh sd =>
    cases t with
    | mk tf tsh td =>
      simp only at hf hsh hl he
      subst hf; subst hsh
      congr 1
      refine List.ext_getElem hl fun i h1 h2 => ?_
      have := he i h1
      simp only [Tensor.elt] at this
      rwa [List.getD_eq_getElem sd 0 h1, List.getD_eq_getElem td 0 h2] at this

/-! Element characterizations of `chunk` and `cat`. -/

theorem chunkOf3_elt (t : Tensor) (dim c : Nat) (inner o i : Nat)
    (hinner : (t.shape.drop (dim + 1)).prod = inner)
    (hk : o * inner + i < (t.shape.set dim 1).prod) (hi : i < inner) :
    (chunkOf3 t dim c).elt (o * inner + i)
      = t.elt (o * (3 * inner) + c * inner + i) := by
  unfold chunkOf3
  rw [tensorOfFn_elt _ _ _ _ hk, hinner, comp_div o i inner hi, comp_mod o i inner hi]

theorem cat3_elt (dim : Nat) (a b c : Tensor) (inner o ch i : Nat)
    (hinner : (a.shape.drop (dim + 1)).prod = inner)
    (hk : o * (3 * inner) + ch * inner + i < (a.shape.set dim 3).prod)
    (hch : ch < 3) (hi : i < inner) :
    (cat3 dim a b c).elt (o * (3 * inner) + ch * inner + i)
      = if ch = 0 then a.elt (o * inner + i)
        else if ch = 1 then b.elt (o * inner + i)
        else c.elt (o * inner + i) := by
  unfold cat3
  rw [tensorOfFn_elt _ _ _ _ hk, hinner]
  have hkey : o * (3 * inner) + ch * inner + i = (3 * o + ch) * inner + i := by ring
  rw [hkey, comp_div _ i inner hi, comp_mod _ i inner hi, Nat.mul_add_mod,
    Nat.mod_eq_of_lt hch, Nat.mul_add_div (by omega), Nat.div_eq_of_lt hch, Nat.add_zero]

/-! Characterization of the two colour-conversion functions on valid
inputs: success, shape preservation, and the per-channel plane formulas. -/

theorem rgb2ycbcr_ok (t : Tensor) (outer inner : Nat)
    (hf : t.isFloat = true)
    (hrank : t.shape.length = 3 ∨ t.shape.length = 4)
    (hchan : t.shape.getD (t.shape.length - 3) 0 = 3)
    (hinner : (t.shape.drop (t.shape.length - 3 + 1)).prod = inner)
    (hinner1 : ((t.shape.set (t.shape.length - 3) 1).drop (t.shape.length - 3 + 1)).prod
      = inner)
    (hprod1 : (t.shape.set (t.shape.length - 3) 1).prod = outer * inner)
    (hset13 : (t.shape.set (t.shape.length - 3) 1).set (t.shape.length - 3) 3 = t.shape)
    (hprod : t.shape.prod = outer * (3 * inner)) :
    ∃ s : Tensor, rgb2ycbcr t = Except.ok s ∧ s.isFloat = true ∧ s.shape = t.shape ∧
      s.data.length = t.shape.prod ∧
      ∀ o c i, o < outer → c < 3 → i < inner →
        s.elt (o * (3 * inner) + c * inner + i)
          = ycbcrFormula (t.elt (o * (3 * inner) + 0 * inner + i))
              (t.elt (o * (3 * inner) + 1 * inner + i))
              (t.elt (o * (3 * inner) + 2 * inner + i)) c := by
  have hb1 : (t.shape.length == 3 || t.shape.length == 4) = true := by
    rcases hrank with h | h <;> simp [h]
  have hchan2 : t.shape[t.shape.length - 3]?.getD 0 = 3 := by
    simpa [List.getD] using hchan
  have hchk : _check_input_tensor t = Except.ok () := by
    simp [_check_input_tensor, hf, hb1, hchan2]
  simp only [rgb2ycbcr, hchk]
  set r := chunkOf3 t (t.shape.length - 3) 0 with hr
  set g := chunkOf3 t (t.shape.length - 3) 1 with hg
  set b := chunkOf3 t (t.shape.length - 3) 2 with hb
  set y := ((r.smul Kr).add (g.smul Kg)).add (b.smul Kb) with hy
  set cb := (((b.sub y).smul (1/2)).divC (1 - Kb)).addC (1/2) with hcb
  set cr := (((r.sub y).smul (1/2)).divC (1 - Kr)).addC (1/2) with hcr
  refine ⟨cat3 (t.shape.length - 3) y cb cr, rfl, ?_, ?_, ?_, ?_⟩
  · simp [hy, hr, hf]
  · simp only [cat3_shape, hy, add_shape, smul_shape, hr, chunkOf3_shape]
    exact hset13
  · simp only [cat3, tensorOfFn_length, hy, add_shape, smul_shape, hr, chunkOf3_shape]
    rw [hset13]
  · intro o c i ho hc hi
    have hki : o * inner + i < (t.shape.set (t.shape.length - 3) 1).prod := by
      rw [hprod1]; exact mul_bound o i inner outer ho hi
    have hrv : r.elt (o * inner + i) = t.elt (o * (3 * inner) + 0 * inner + i) := by
      rw [hr]; exact chunkOf3_elt t _ 0 inner o i hinner hki hi
    have hgv : g.elt (o * inner + i) = t.elt (o * (3 * inner) + 1 * inner + i) := by
      rw [hg]; exact chunkOf3_elt t _ 1 inner o i hinner hki hi
    have hbv : b.elt (o * inner + i) = t.elt (o * (3 * inner) + 2 * inner + i) := by
      rw [hb]; exact chunkOf3_elt t _ 2 inner o i hinner hki hi
    have hyv : y.elt (o * inner + i)
        = Kr * t.elt (o * (3 * inner) + 0 * inner + i)
          + Kg * t.elt (o * (3 * inner) + 1 * inner + i)
          + Kb * t.elt (o * (3 * inner) + 2 * inner + i) := by
      rw [hy, add_elt _ _ _ (by simpa [hr, hg] using hki),
        add_elt _ _ _ (by simpa [hr] using hki),
        smul_elt _ _ _ (by simpa [hr] using hki),
        smul_elt _ _ _ (by simpa [hg] using hki),
        smul_elt _ _ _ (by simpa [hb] using hki), hrv, hgv, hbv]
    have hcbv : cb.elt (o * inner + i)
        = 1/2 * (t.elt (o * (3 * inner) + 2 * inner + i)
            - (Kr * t.elt (o * (3 * inner) + 0 * inner + i)
              + Kg * t.elt (o * (3 * inner) + 1 * inner + i)
              + Kb * t.elt (o * (3 * inner) + 2 * inner + i))) / (1 - Kb) + 1/2 := by
      rw [hcb, addC_elt _ _ _ (by simpa [hb, hy, hr] using hki),
        divC_elt _ _ _ (by simpa [hb, hy, hr] using hki),
        smul_elt _ _ _ (by simpa [hb, hy, hr] using hki),
        sub_elt _ _ _ (by simpa [hb] using hki), hbv, hyv]
    have hcrv : cr.elt (o * inner + i)
        = 1/2 * (t.elt (o * (3 * inner) + 0 * inner + i)
            - (Kr * t.elt (o * (3 * inner) + 0 * inner + i)
              + Kg * t.elt (o * (3 * inner) + 1 * inner + i)
              + Kb * t.elt (o * (3 * inner) + 2 * inner + i))) / (1 - Kr) + 1/2 := by
      rw [hcr, addC_elt _ _ _ (by simpa [hr, hy] using hki),
        divC_elt _ _ _ (by simpa [hr, hy] using hki),
        smul_elt _ _ _ (by simpa [hr, hy] using hki),
        sub_elt _ _ _ (by simpa [hr] using hki), hrv, hyv]
    rw [cat3_elt _ y cb cr inner o c i (by simp [hy, hr, hinner1])
      (by
        simp only [hy, add_shape, smul_shape, hr, chunkOf3_shape]
        rw [hset13, hprod, Nat.add_assoc]
        exact mul_bound o _ (3 * inner) outer ho (mul_bound c i inner 3 hc hi)) hc hi]
    interval_cases c
    · simpa [ycbcrFormula] using hyv
    · simpa [ycbcrFormula] using hcbv
    · simpa [ycbcrFormula] using hcrv

theorem ycbcr2rgb_ok (t : Tensor) (outer inner : Nat)
    (hf : t.isFloat = true)
    (hrank : t.shape.length = 3 ∨ t.shape.length = 4)
    (hchan : t.shape.getD (t.shape.length - 3) 0 = 3)
    (hinner : (t.shape.drop (t.shape.length - 3 + 1)).prod = inner)
    (hinner1 : ((t.shape.set (t.shape.length - 3) 1).drop (t.shape.length - 3 + 1)).prod
      = inner)
    (hprod1 : (t.shape.set (t.shape.length - 3) 1).prod = outer * inner)
    (hset13 : (t.shape.set (t.shape.length - 3) 1).set (t.shape.length - 3) 3 = t.shape)
    (hprod : t.shape.prod = outer * (3 * inner)) :
    ∃ s : Tensor, ycbcr2rgb t = Except.ok s ∧ s.isFloat = true ∧ s.shape = t.shape ∧
      s.data.length = t.shape.prod ∧
      ∀ o c i, o < outer → c < 3 → i < inner →
        s.elt (o * (3 * inner) + c * inner + i)
          = rgbFormula (t.elt (o * (3 * inner) + 0 * inner + i))
              (t.elt (o * (3 * inner) + 1 * inner + i))
              (t.elt (o * (3 * inner) + 2 * inner + i)) c := by
  have hb1 : (t.shape.length == 3 || t.shape.length == 4) = true := by
    rcases hrank with h | h <;> simp [h]
  have hchan2 : t.shape[t.shape.length - 3]?.getD 0 = 3 := by
    simpa [List.getD] using hchan
  have hchk : _check_input_tensor t = Except.ok () := by
    simp [_check_input_tensor, hf, hb1, hchan2]
  simp only [ycbcr2rgb, hchk]
  set y := chunkOf3 t (t.shape.length - 3) 0 with hy
  set cb := chunkOf3 t (t.shape.length - 3) 1 with hcb
  set cr := chunkOf3 t (t.shape.length - 3) 2 with hcr
  set r := y.add ((cr.subC (1/2)).smul (2 - 2 * Kr)) with hr
  set b := y.add ((cb.subC (1/2)).smul (2 - 2 * Kb)) with hb
  set g := ((y.sub (r.smul Kr)).sub (b.smul Kb)).divC Kg with hg
  refine ⟨cat3 (t.shape.length - 3) r g b, rfl, ?_, ?_, ?_, ?_⟩
  · simp [hr, hy, hf]
  · simp only [cat3_shape, hr, add_shape, hy, chunkOf3_shape]
    exact hset13
  · simp only [cat3, tensorOfFn_length, hr, add_shape, hy, chunkOf3_shape]
    rw [hset13]
  · intro o c i ho hc hi
    have hki : o * inner + i < (t.shape.set (t.shape.length - 3) 1).prod := by
      rw [hprod1]; exact mul_bound o i inner outer ho hi
    have hyv : y.elt (o * inner + i) = t.elt (o * (3 * inner) + 0 * inner + i) := by
      rw [hy]; exact chunkOf3_elt t _ 0 inner o i hinner hki hi
    have hcbv : cb.elt (o * inner + i) = t.elt (o * (3 * inner) + 1 * inner + i) := by
      rw [hcb]; exact chunkOf3_elt t _ 1 inner o i hinner hki hi
    have hcrv : cr.elt (o * inner + i) = t.elt (o * (3 * inner) + 2 * inner + i) := by
      rw [hcr]; exact chunkOf3_elt t _ 2 inner o i hinner hki hi
    have hrv : r.elt (o * inner + i)
        = t.elt (o * (3 * inner) + 0 * inner + i)
          + (2 - 2 * Kr) * (t.elt (o * (3 * inner) + 2 * inner + i) - 1/2) := by
      rw [hr, add_elt _ _ _ (by simpa [hy] using hki),
        smul_elt _ _ _ (by simpa [hcr] using hki),
        subC_elt _ _ _ (by simpa [hcr] using hki), hyv, hcrv]
    have hbv : b.elt (o * inner + i)
        = t.elt (o * (3 * inner) + 0 * inner + i)
          + (2 - 2 * Kb) * (t.elt (o * (3 * inner) + 1 * inner + i) - 1/2) := by
      rw [hb, add_elt _ _ _ (by simpa [hy] using hki),
        smul_elt _ _ _ (by simpa [hcb] using hki),
        subC_elt _ _ _ (by simpa [hcb] using hki), hyv, hcbv]
    have hgv : g.elt (o * inner + i)
        = (t.elt (o * (3 * inner) + 0 * inner + i)
            - Kr * (t.elt (o * (3 * inner) + 0 * inner + i)
              + (2 - 2 * Kr) * (t.elt (o * (3 * inner) + 2 * inner + i) - 1/2))
            - Kb * (t.elt (o * (3 * inner) + 0 * inner + i)
              + (2 - 2 * Kb) * (t.elt (o * (3 * inner) + 1 * inner + i) - 1/2))) / Kg := by
      rw [hg, divC_elt _ _ _ (by simpa [hy] using hki),
        sub_elt _ _ _ (by simpa [hy] using hki),
        sub_elt _ _ _ (by simpa [hy] using hki),
        smul_elt _ _ _ (by simpa [hr, hy] using hki),
        smul_elt _ _ _ (by simpa [hb, hy] using hki), hyv, hrv, hbv]
    rw [cat3_elt _ r g b inner o c i (by simp [hr, hy, hinner1])
      (by
        simp only [hr, add_shape, hy, chunkOf3_shape]
        rw [hset13, hprod, Nat.add_assoc]
        exact mul_bound o _ (3 * inner) outer ho (mul_bound c i inner 3 hc hi)) hc hi]
    interval_cases c
    · simpa [rgbFormula] using hrv
    · simpa [rgbFormula] using hgv
    · simpa [rgbFormula] using hbv

/-! Characterization of the resampling primitives. -/

@[simp] theorem avg_pool2d_2_isFloat (t : Tensor) :
    (avg_pool2d_2 t).isFloat = t.isFloat := rfl

@[simp] theorem avg_pool2d_2_shape (t : Tensor) :
    (avg_pool2d_2 t).shape
      = t.shape.take (t.shape.length - 2)
        ++ [t.shape.getD (t.shape.length - 2) 0 / 2,
            t.shape.getD (t.shape.length - 1) 0 / 2] := rfl

@[simp] theorem interpolate2_isFloat (t : Tensor) :
    (interpolate2 t).isFloat = t.isFloat := rfl

@[simp] theorem interpolate2_shape (t : Tensor) :
    (interpolate2 t).shape
      = t.shape.take (t.shape.length - 2)
        ++ [2 * t.shape.getD (t.shape.length - 2) 0,
            2 * t.shape.getD (t.shape.length - 1) 0] := rfl

theorem avg_pool2d_2_elt (t : Tensor) (H W o i j : Nat)
    (hH : t.shape.getD (t.shape.length - 2) 0 = H)
    (hW : t.shape.getD (t.shape.length - 1) 0 = W)
    (hk : o * (H / 2 * (W / 2)) + i * (W / 2) + j
      < (t.shape.take (t.shape.length - 2) ++ [H / 2, W / 2]).prod)
    (hi : i < H / 2) (hj : j < W / 2) :
    (avg_pool2d_2 t).elt (o * (H / 2 * (W / 2)) + i * (W / 2) + j)
      = (t.elt (o * (H * W) + 2 * i * W + 2 * j)
        + t.elt (o * (H * W) + 2 * i * W + (2 * j + 1))
        + t.elt (o * (H * W) + (2 * i + 1) * W + 2 * j)
        + t.elt (o * (H * W) + (2 * i + 1) * W + (2 * j + 1))) / 4 := by
  have hsub : i * (W / 2) + j < H / 2 * (W / 2) := mul_bound i j (W / 2) (H / 2) hi hj
  unfold avg_pool2d_2
  rw [hH, hW, tensorOfFn_elt _ _ _ _ hk]
  simp only
  have hrw : o * (H / 2 * (W / 2)) + i * (W / 2) + j
      = o * (H / 2 * (W / 2)) + (i * (W / 2) + j) := Nat.add_assoc _ _ _
  rw [hrw, comp_div o _ _ hsub, comp_mod o _ _ hsub,
    comp_div i j _ hj, comp_mod i j _ hj]

/-- On a list of exactly three tensors, `yuv_420_to_444` validates and
upsamples. -/
theorem yuv_420_to_444_tensors (y u v : Tensor) (rt : Bool) :
    yuv_420_to_444 [Val.tens y, Val.tens u, Val.tens v] rt
      = if rt then Except.ok (Out444.triple y (interpolate2 u) (interpolate2 v))
        else Except.ok (Out444.single (cat3 1 y (interpolate2 u) (interpolate2 v))) := by
  cases rt <;> simp [yuv_420_to_444, Val.isTensor]

/-! Round trip of the colour conversions. -/

theorem roundtrip_core (t : Tensor) (outer inner : Nat)
    (hw : t.wf) (hf : t.isFloat = true)
    (hrank : t.shape.length = 3 ∨ t.shape.length = 4)
    (hchan : t.shape.getD (t.shape.length - 3) 0 = 3)
    (hinner : (t.shape.drop (t.shape.length - 3 + 1)).prod = inner)
    (hinner1 : ((t.shape.set (t.shape.length - 3) 1).drop (t.shape.length - 3 + 1)).prod
      = inner)
    (hprod1 : (t.shape.set (t.shape.length - 3) 1).prod = outer * inner)
    (hset13 : (t.shape.set (t.shape.length - 3) 1).set (t.shape.length - 3) 3 = t.shape)
    (hprod : t.shape.prod = outer * (3 * inner)) :
    (rgb2ycbcr t).bind ycbcr2rgb = Except.ok t := by
  obtain ⟨s, hseq, hsf, hssh, hslen, hselt⟩ :=
    rgb2ycbcr_ok t outer inner hf hrank hchan hinner hinner1 hprod1 hset13 hprod
  obtain ⟨u, hueq, huf, hush, hulen, huelt⟩ :=
    ycbcr2rgb_ok s outer inner hsf (by rw [hssh]; exact hrank) (by rw [hssh]; exact hchan)
      (by rw [hssh]; exact hinner) (by rw [hssh]; exact hinner1)
      (by rw [hssh]; exact hprod1) (by rw [hssh]; exact hset13) (by rw [hssh]; exact hprod)
  rw [hseq]
  simp only [Except.bind]
  rw [hueq]
  congr 1
  apply Tensor.ext_elt
  · rw [huf, hf]
  · rw [hush, hssh]
  · rw [hulen, hssh, hw]
  · intro k hk
    rw [hulen, hssh, hprod] at hk
    obtain ⟨o, c, i, ho, hc, hi, rfl⟩ := index_decomp3 k outer inner hk
    rw [huelt o c i ho hc hi, hselt o 0 i ho (by omega) hi, hselt o 1 i ho (by omega) hi,
      hselt o 2 i ho (by omega) hi]
    interval_cases c
    · simp only [rgbFormula, ycbcrFormula, Kr, Kg, Kb, YCBCR_WEIGHTS_BT709]
      norm_num
      ring
    · simp only [rgbFormula, ycbcrFormula, Kr, Kg, Kb, YCBCR_WEIGHTS_BT709]
      norm_num
      ring
    · simp only [rgbFormula, ycbcrFormula, Kr, Kg, Kb, YCBCR_WEIGHTS_BT709]
      norm_num
      ring

/-! The claims. -/

/-- C1: for every floating-point tensor of shape (3,H,W) or (N,3,H,W),
applying `rgb2ycbcr` and then `ycbcr2rgb` returns the original tensor
exactly under the exact rational arithmetic of the embedding — the two
transforms are algebraic inverses, with no clamping or quantization. -/
theorem claim_C1 (t : Tensor) (hw : t.wf) (hf : t.isFloat = true)
    (hs : (∃ h w, t.shape = [3, h, w]) ∨ (∃ n h w, t.shape = [n, 3, h, w])) :
    (rgb2ycbcr t).bind ycbcr2rgb = Except.ok t := by
  rcases hs with ⟨h, w, hs⟩ | ⟨n, h, w, hs⟩
  · exact roundtrip_core t 1 (h * w) hw hf (Or.inl (by simp [hs])) (by simp [hs])
      (by simp [hs]) (by simp [hs]) (by simp [hs]) (by simp [hs]) (by simp [hs])
  · exact roundtrip_core t n (h * w) hw hf (Or.inr (by simp [hs])) (by simp [hs])
      (by simp [hs]) (by simp [hs]) (by simp [hs]) (by simp [hs]) (by simp [hs])

/-- Witness for C1 at a concrete rank-3 tensor. -/
theorem claim_C1_witness :
    (rgb2ycbcr ⟨true, [3, 1, 1], [1/3, 1/5, 2/7]⟩).bind ycbcr2rgb
      = Except.ok ⟨true, [3, 1, 1], [1/3, 1/5, 2/7]⟩ :=
  claim_C1 ⟨true, [3, 1, 1], [1/3, 1/5, 2/7]⟩ rfl rfl (Or.inl ⟨1, 1, rfl⟩)

/-- C2: on every valid input (floating point, rank 3 or 4, channel axis of
length 3), `rgb2ycbcr` succeeds, preserves the shape, and every element of
the output at channel `c` is the `ycbcrFormula` of the R, G, B planes with
the BT.709 weights (0.2126, 0.7152, 0.0722). -/
theorem claim_C2 (t : Tensor) (hf : t.isFloat = true)
    (hs : (∃ h w, t.shape = [3, h, w]) ∨ (∃ n h w, t.shape = [n, 3, h, w])) :
    Kr = 2126/10000 ∧ Kg = 7152/10000 ∧ Kb = 722/10000 ∧
    ∃ s, rgb2ycbcr t = Except.ok s ∧ s.isFloat = true ∧ s.shape = t.shape ∧
      s.data.length = t.shape.prod ∧
      ∀ o c i, o < (t.shape.take (t.shape.length - 3)).prod → c < 3
        → i < (t.shape.drop (t.shape.length - 3 + 1)).prod →
        s.elt (o * (3 * (t.shape.drop (t.shape.length - 3 + 1)).prod)
            + c * (t.shape.drop (t.shape.length - 3 + 1)).prod + i)
          = ycbcrFormula
              (t.elt (o * (3 * (t.shape.drop (t.shape.length - 3 + 1)).prod)
                + 0 * (t.shape.drop (t.shape.length - 3 + 1)).prod + i))
              (t.elt (o * (3 * (t.shape.drop (t.shape.length - 3 + 1)).prod)
                + 1 * (t.shape.drop (t.shape.length - 3 + 1)).prod + i))
              (t.elt (o * (3 * (t.shape.drop (t.shape.length - 3 + 1)).prod)
                + 2 * (t.shape.drop (t.shape.length - 3 + 1)).prod + i)) c := by
  refine ⟨rfl, rfl, rfl, ?_⟩
  rcases hs with ⟨h, w, hs⟩ | ⟨n, h, w, hs⟩
  · exact rgb2ycbcr_ok t ((t.shape.take (t.shape.length - 3)).prod)
      ((t.shape.drop (t.shape.length - 3 + 1)).prod) hf (Or.inl (by simp [hs]))
      (by simp [hs]) rfl (by simp [hs]) (by simp [hs]) (by simp [hs]) (by simp [hs])
  · exact rgb2ycbcr_ok t ((t.shape.take (t.shape.length - 3)).prod)
      ((t.shape.drop (t.shape.length - 3 + 1)).prod) hf (Or.inr (by simp [hs]))
      (by simp [hs]) rfl (by simp [hs]) (by simp [hs]) (by simp [hs]) (by simp [hs])

/-- Witness for C2 at a concrete rank-3 tensor. -/
theorem claim_C2_witness :
    ∃ s, rgb2ycbcr ⟨true, [3, 1, 1], [1/2, 1/3, 1/4]⟩ = Except.ok s
      ∧ s.shape = [3, 1, 1] := by
  obtain ⟨-, -, -, s, h1, -, h3, -, -⟩ :=
    claim_C2 ⟨true, [3, 1, 1], [1/2, 1/3, 1/4]⟩ rfl (Or.inl ⟨1, 1, rfl⟩)
  exact ⟨s, h1, h3⟩

/-- C3: the validator succeeds silently exactly on floating-point tensors of
rank 3 or 4 whose third-from-last axis has size 3, and otherwise fails with
the `ValueError` whose message names the expected shape (Nx3xHxW); it has no
other outcome. -/
theorem claim_C3 (t : Tensor) :
    (_check_input_tensor t = Except.ok ()
      ↔ t.isFloat = true ∧ (t.shape.length = 3 ∨ t.shape.length = 4)
        ∧ t.shape.getD (t.shape.length - 3) 0 = 3)
    ∧ (_check_input_tensor t = Except.ok ()
      ∨ _check_input_tensor t
          = Except.error
            (PyErr.valueError "Expected a 4D tensor with shape (Nx3xHxW) as input")) := by
  have key : (!t.isFloat || !(t.shape.length == 3 || t.shape.length == 4)
      || !(t.shape.getD (t.shape.length - 3) 0 == 3)) = false
      ↔ (t.isFloat = true ∧ (t.shape.length = 3 ∨ t.shape.length = 4)
        ∧ t.shape.getD (t.shape.length - 3) 0 = 3) := by
    simp [List.getD]
    tauto
  unfold _check_input_tensor
  split
  · rename_i hcond
    constructor
    · constructor
      · intro hok
        exact absurd hok (by simp)
      · intro hr
        rw [← key] at hr
        rw [hcond] at hr
        exact absurd hr (by simp)
    · right
      rfl
  · rename_i hcond
    constructor
    · constructor
      · intro _
        rw [← key]
        simpa using hcond
      · intro _
        rfl
    · left
      rfl

/-- Witness for C3: a non-floating-point tensor is rejected with the shape
message. -/
theorem claim_C3_witness :
    _check_input_tensor ⟨false, [3, 2, 2], []⟩
      = Except.error
          (PyErr.valueError "Expected a 4D tensor with shape (Nx3xHxW) as input") := by
  rcases (claim_C3 ⟨false, [3, 2, 2], []⟩).2 with h | h
  · exact absurd ((claim_C3 ⟨false, [3, 2, 2], []⟩).1.mp h) (by simp)
  · exact h

/-- C8: the stored BT.709 weights satisfy Kg = 1 - Kr - Kb (so they sum
to 1), and on the uniform tensor of shape (1,3,4,4) with every element 1,
`rgb2ycbcr` yields Y = 1 and Cb = Cr = 1/2 everywhere. -/
theorem claim_C8 :
    Kg = 1 - Kr - Kb ∧ Kr + Kg + Kb = 1 ∧
    ∃ s, rgb2ycbcr (tensorOfFn true [1, 3, 4, 4] fun _ => 1) = Except.ok s ∧
      ∀ o c i, o < 1 → c < 3 → i < 16 →
        s.elt (o * 48 + c * 16 + i) = if c = 0 then 1 else 1/2 := by
  refine ⟨by norm_num [Kr, Kg, Kb, YCBCR_WEIGHTS_BT709],
    by norm_num [Kr, Kg, Kb, YCBCR_WEIGHTS_BT709], ?_⟩
  obtain ⟨s, h1, -, -, -, h5⟩ :=
    rgb2ycbcr_ok (tensorOfFn true [1, 3, 4, 4] fun _ => 1) 1 16 rfl
      (Or.inr (by simp)) (by simp) (by simp) (by simp) (by simp) (by simp) (by simp)
  refine ⟨s, h1, ?_⟩
  intro o c i ho hc hi
  have h := h5 o c i ho hc hi
  have e0 : (tensorOfFn true [1, 3, 4, 4] fun _ => (1 : ℚ)).elt
      (o * (3 * 16) + 0 * 16 + i) = 1 :=
    tensorOfFn_elt _ _ _ _ (by simp; omega)
  have e1 : (tensorOfFn true [1, 3, 4, 4] fun _ => (1 : ℚ)).elt
      (o * (3 * 16) + 1 * 16 + i) = 1 :=
    tensorOfFn_elt _ _ _ _ (by simp; omega)
  have e2 : (tensorOfFn true [1, 3, 4, 4] fun _ => (1 : ℚ)).elt
      (o * (3 * 16) + 2 * 16 + i) = 1 :=
    tensorOfFn_elt _ _ _ _ (by simp; omega)
  rw [e0, e1, e2] at h
  have hidx : o * 48 + c * 16 + i = o * (3 * 16) + c * 16 + i := by norm_num
  rw [hidx, h]
  interval_cases c
  · norm_num [ycbcrFormula, Kr, Kg, Kb, YCBCR_WEIGHTS_BT709]
  · norm_num [ycbcrFormula, Kr, Kg, Kb, YCBCR_WEIGHTS_BT709]
  · norm_num [ycbcrFormula, Kr, Kg, Kb, YCBCR_WEIGHTS_BT709]

/-- Witness for C8: the first output element of the uniform input is 1. -/
theorem claim_C8_witness :
    Kr + Kg + Kb = 1 ∧
    ∃ s, rgb2ycbcr (tensorOfFn true [1, 3, 4, 4] fun _ => 1) = Except.ok s ∧
      s.elt 0 = 1 := by
  obtain ⟨-, hsum, s, heq, helt⟩ := claim_C8
  refine ⟨hsum, s, heq, ?_⟩
  have h := helt 0 0 0 (by norm_num) (by norm_num) (by norm_num)
  simpa using h

/-- The YCbCr formula maps [0,1] inputs into [0,1] (exact arithmetic). -/
theorem ycbcrFormula_mem01 (R G B : ℚ) (hR0 : 0 ≤ R) (hR1 : R ≤ 1) (hG0 : 0 ≤ G)
    (hG1 : G ≤ 1) (hB0 : 0 ≤ B) (hB1 : B ≤ 1) (c : Nat) :
    0 ≤ ycbcrFormula R G B c ∧ ycbcrFormula R G B c ≤ 1 := by
  unfold ycbcrFormula
  split
  · constructor
    · simp only [Kr, Kg, Kb, YCBCR_WEIGHTS_BT709]
      norm_num
      nlinarith
    · simp only [Kr, Kg, Kb, YCBCR_WEIGHTS_BT709]
      norm_num
      nlinarith
  · split
    · constructor
      · simp only [Kr, Kg, Kb, YCBCR_WEIGHTS_BT709]
        norm_num
        rw [div_eq_mul_inv]
        norm_num
        nlinarith
      · simp only [Kr, Kg, Kb, YCBCR_WEIGHTS_BT709]
        norm_num
        rw [div_eq_mul_inv]
        norm_num
        nlinarith
    · constructor
      · simp only [Kr, Kg, Kb, YCBCR_WEIGHTS_BT709]
        norm_num
        rw [div_eq_mul_inv]
        norm_num
        nlinarith
      · simp only [Kr, Kg, Kb, YCBCR_WEIGHTS_BT709]
        norm_num
        rw [div_eq_mul_inv]
        norm_num
        nlinarith

/-- C9: on every valid input all of whose elements lie in [0,1], every
element of the output of `rgb2ycbcr` lies in [0,1] (exact arithmetic). -/
theorem claim_C9 (t : Tensor) (hw : t.wf) (hf : t.isFloat = true)
    (hs : (∃ h w, t.shape = [3, h, w]) ∨ (∃ n h w, t.shape = [n, 3, h, w]))
    (hin : ∀ k, k < t.data.length → 0 ≤ t.elt k ∧ t.elt k ≤ 1) :
    ∃ s, rgb2ycbcr t = Except.ok s ∧
      ∀ k, k < s.data.length → 0 ≤ s.elt k ∧ s.elt k ≤ 1 := by
  have main : ∀ outer inner : Nat,
      t.shape.length = 3 ∨ t.shape.length = 4 →
      t.shape.getD (t.shape.length - 3) 0 = 3 →
      (t.shape.drop (t.shape.length - 3 + 1)).prod = inner →
      ((t.shape.set (t.shape.length - 3) 1).drop (t.shape.length - 3 + 1)).prod = inner →
      (t.shape.set (t.shape.length - 3) 1).prod = outer * inner →
      (t.shape.set (t.shape.length - 3) 1).set (t.shape.length - 3) 3 = t.shape →
      t.shape.prod = outer * (3 * inner) →
      ∃ s, rgb2ycbcr t = Except.ok s ∧
        ∀ k, k < s.data.length → 0 ≤ s.elt k ∧ s.elt k ≤ 1 := by
    intro outer inner hrank hchan hinner hinner1 hprod1 hset13 hprod
    obtain ⟨s, h1, -, -, h4, h5⟩ :=
      rgb2ycbcr_ok t outer inner hf hrank hchan hinner hinner1 hprod1 hset13 hprod
    refine ⟨s, h1, ?_⟩
    intro k hk
    rw [h4, hprod] at hk
    obtain ⟨o, c, i, ho, hc, hi, rfl⟩ := index_decomp3 k outer inner hk
    rw [h5 o c i ho hc hi]
    have hlen : t.data.length = outer * (3 * inner) := by rw [hw, hprod]
    have hb0 : o * (3 * inner) + 0 * inner + i < t.data.length := by
      rw [hlen, Nat.add_assoc]
      exact mul_bound o _ (3 * inner) outer ho (mul_bound 0 i inner 3 (by omega) hi)
    have hb1 : o * (3 * inner) + 1 * inner + i < t.data.length := by
      rw [hlen, Nat.add_assoc]
      exact mul_bound o _ (3 * inner) outer ho (mul_bound 1 i inner 3 (by omega) hi)
    have hb2 : o * (3 * inner) + 2 * inner + i < t.data.length := by
      rw [hlen, Nat.add_assoc]
      exact mul_bound o _ (3 * inner) outer ho (mul_bound 2 i inner 3 (by omega) hi)
    obtain ⟨hR0, hR1⟩ := hin _ hb0
    obtain ⟨hG0, hG1⟩ := hin _ hb1
    obtain ⟨hB0, hB1⟩ := hin _ hb2
    exact ycbcrFormula_mem01 _ _ _ hR0 hR1 hG0 hG1 hB0 hB1 c
  rcases hs with ⟨h, w, hs⟩ | ⟨n, h, w, hs⟩
  · exact main 1 (h * w) (Or.inl (by simp [hs])) (by simp [hs]) (by simp [hs])
      (by simp [hs]) (by simp [hs]) (by simp [hs]) (by simp [hs])
  · exact main n (h * w) (Or.inr (by simp [hs])) (by simp [hs]) (by simp [hs])
      (by simp [hs]) (by simp [hs]) (by simp [hs]) (by simp [hs])

/-- Witness for C9 at a concrete in-range tensor. -/
theorem claim_C9_witness :
    ∃ s, rgb2ycbcr ⟨true, [3, 1, 1], [0, 1/2, 1]⟩ = Except.ok s ∧
      ∀ k, k < s.data.length → 0 ≤ s.elt k ∧ s.elt k ≤ 1 := by
  refine claim_C9 ⟨true, [3, 1, 1], [0, 1/2, 1]⟩ rfl rfl (Or.inl ⟨1, 1, rfl⟩) ?_
  intro k hk
  simp only [List.length_cons, List.length_nil] at hk
  interval_cases k <;> norm_num [Tensor.elt]

/-- A chroma plane of shape (n,1,2a,2b) is pooled to (n,1,a,b), each output
pixel the mean of a disjoint 2x2 block. -/
theorem downsample_half (u : Tensor) (n a b : Nat) (hu : u.shape = [n, 1, 2*a, 2*b]) :
    (avg_pool2d_2 u).shape = [n, 1, a, b] ∧
    ∀ o i j, o < n → i < a → j < b →
      (avg_pool2d_2 u).elt (o * (a*b) + i * b + j)
        = (u.elt (o * (2*a*(2*b)) + 2 * i * (2*b) + 2 * j)
          + u.elt (o * (2*a*(2*b)) + 2 * i * (2*b) + (2 * j + 1))
          + u.elt (o * (2*a*(2*b)) + (2 * i + 1) * (2*b) + 2 * j)
          + u.elt (o * (2*a*(2*b)) + (2 * i + 1) * (2*b) + (2 * j + 1))) / 4 := by
  have e1 : 2 * a / 2 = a := Nat.mul_div_cancel_left a (by norm_num)
  have e2 : 2 * b / 2 = b := Nat.mul_div_cancel_left b (by norm_num)
  constructor
  · simp [hu, e1, e2]
  · intro o i j ho hi hj
    have h1 : i * b + j < a * b := mul_bound i j b a hi hj
    have h2 : o * (a*b) + (i * b + j) < n * (a*b) := mul_bound o _ (a*b) n ho h1
    have h := avg_pool2d_2_elt u (2*a) (2*b) o i j (by simp [hu]) (by simp [hu])
      (by
        simp only [hu, e1, e2]
        simp
        rw [Nat.add_assoc]
        exact h2)
      (by rw [e1]; exact hi) (by rw [e2]; exact hj)
    rw [e1, e2] at h
    exact h

/-- C4: for both input forms of `yuv_444_to_420` (a packed (N,3,2a,2b)
tensor or an explicit triple with chroma planes of shape (N,1,2a,2b)), the
result is a triple whose first element is the luma plane unchanged, and
whose chroma elements are means of disjoint 2x2 blocks of the corresponding
input chroma plane, at half resolution (N,1,a,b). -/
theorem claim_C4 (n a b : Nat) :
    (∀ y u v : Tensor, u.shape = [n, 1, 2*a, 2*b] → v.shape = [n, 1, 2*a, 2*b] →
      yuv_444_to_420 (YUVIn.triple y u v) = (y, avg_pool2d_2 u, avg_pool2d_2 v)
      ∧ (avg_pool2d_2 u).shape = [n, 1, a, b]
      ∧ (avg_pool2d_2 v).shape = [n, 1, a, b]
      ∧ (∀ o i j, o < n → i < a → j < b →
          (avg_pool2d_2 u).elt (o * (a*b) + i * b + j)
            = (u.elt (o * (2*a*(2*b)) + 2 * i * (2*b) + 2 * j)
              + u.elt (o * (2*a*(2*b)) + 2 * i * (2*b) + (2 * j + 1))
              + u.elt (o * (2*a*(2*b)) + (2 * i + 1) * (2*b) + 2 * j)
              + u.elt (o * (2*a*(2*b)) + (2 * i + 1) * (2*b) + (2 * j + 1))) / 4
          ∧ (avg_pool2d_2 v).elt (o * (a*b) + i * b + j)
            = (v.elt (o * (2*a*(2*b)) + 2 * i * (2*b) + 2 * j)
              + v.elt (o * (2*a*(2*b)) + 2 * i * (2*b) + (2 * j + 1))
              + v.elt (o * (2*a*(2*b)) + (2 * i + 1) * (2*b) + 2 * j)
              + v.elt (o * (2*a*(2*b)) + (2 * i + 1) * (2*b) + (2 * j + 1))) / 4))
    ∧ (∀ t : Tensor, t.shape = [n, 3, 2*a, 2*b] →
      yuv_444_to_420 (YUVIn.packed t)
        = (chunkOf3 t 1 0, avg_pool2d_2 (chunkOf3 t 1 1), avg_pool2d_2 (chunkOf3 t 1 2))
      ∧ (chunkOf3 t 1 0).shape = [n, 1, 2*a, 2*b]
      ∧ (∀ o i, o < n → i < 2*a*(2*b) →
          (chunkOf3 t 1 0).elt (o * (2*a*(2*b)) + i)
            = t.elt (o * (3 * (2*a*(2*b))) + 0 * (2*a*(2*b)) + i))
      ∧ (avg_pool2d_2 (chunkOf3 t 1 1)).shape = [n, 1, a, b]
      ∧ (avg_pool2d_2 (chunkOf3 t 1 2)).shape = [n, 1, a, b]
      ∧ (∀ o i j, o < n → i < a → j < b →
          (avg_pool2d_2 (chunkOf3 t 1 1)).elt (o * (a*b) + i * b + j)
            = ((chunkOf3 t 1 1).elt (o * (2*a*(2*b)) + 2 * i * (2*b) + 2 * j)
              + (chunkOf3 t 1 1).elt (o * (2*a*(2*b)) + 2 * i * (2*b) + (2 * j + 1))
              + (chunkOf3 t 1 1).elt (o * (2*a*(2*b)) + (2 * i + 1) * (2*b) + 2 * j)
              + (chunkOf3 t 1 1).elt
                  (o * (2*a*(2*b)) + (2 * i + 1) * (2*b) + (2 * j + 1))) / 4
          ∧ (avg_pool2d_2 (chunkOf3 t 1 2)).elt (o * (a*b) + i * b + j)
            = ((chunkOf3 t 1 2).elt (o * (2*a*(2*b)) + 2 * i * (2*b) + 2 * j)
              + (chunkOf3 t 1 2).elt (o * (2*a*(2*b)) + 2 * i * (2*b) + (2 * j + 1))
              + (chunkOf3 t 1 2).elt (o * (2*a*(2*b)) + (2 * i + 1) * (2*b) + 2 * j)
              + (chunkOf3 t 1 2).elt
                  (o * (2*a*(2*b)) + (2 * i + 1) * (2*b) + (2 * j + 1))) / 4)) := by
  constructor
  · intro y u v hu hv
    obtain ⟨hus, hue⟩ := downsample_half u n a b hu
    obtain ⟨hvs, hve⟩ := downsample_half v n a b hv
    exact ⟨rfl, hus, hvs, fun o i j ho hi hj =>
      ⟨hue o i j ho hi hj, hve o i j ho hi hj⟩⟩
  · intro t ht
    have hc1 : (chunkOf3 t 1 1).shape = [n, 1, 2*a, 2*b] := by simp [ht]
    have hc2 : (chunkOf3 t 1 2).shape = [n, 1, 2*a, 2*b] := by simp [ht]
    obtain ⟨h1s, h1e⟩ := downsample_half (chunkOf3 t 1 1) n a b hc1
    obtain ⟨h2s, h2e⟩ := downsample_half (chunkOf3 t 1 2) n a b hc2
    refine ⟨rfl, by simp [ht], ?_, h1s, h2s, fun o i j ho hi hj =>
      ⟨h1e o i j ho hi hj, h2e o i j ho hi hj⟩⟩
    intro o i ho hi
    refine chunkOf3_elt t 1 0 (2*a*(2*b)) o i (by simp [ht]) ?_ hi
    simp only [ht]
    simp
    calc o * (2 * a * (2 * b)) + i < (o + 1) * (2 * a * (2 * b)) := by
          rw [Nat.add_mul, Nat.one_mul]
          omega
    _ ≤ n * (2 * a * (2 * b)) := Nat.mul_le_mul_right _ (by omega)

/-- Witness for C4 at concrete tensors of shape (1,1,2,2) and (1,3,2,2). -/
theorem claim_C4_witness :
    yuv_444_to_420
        (YUVIn.triple ⟨true, [1, 1, 2, 2], [1, 2, 3, 4]⟩
          ⟨true, [1, 1, 2, 2], [1, 2, 3, 4]⟩ ⟨true, [1, 1, 2, 2], [1, 2, 3, 4]⟩)
      = (⟨true, [1, 1, 2, 2], [1, 2, 3, 4]⟩,
          avg_pool2d_2 ⟨true, [1, 1, 2, 2], [1, 2, 3, 4]⟩,
          avg_pool2d_2 ⟨true, [1, 1, 2, 2], [1, 2, 3, 4]⟩)
    ∧ (avg_pool2d_2 ⟨true, [1, 1, 2, 2], [1, 2, 3, 4]⟩).shape = [1, 1, 1, 1]
    ∧ (avg_pool2d_2 ⟨true, [1, 1, 2, 2], [1, 2, 3, 4]⟩).elt 0 = (1 + 2 + 3 + 4) / 4 := by
  obtain ⟨heq, hsh, -, helt⟩ :=
    (claim_C4 1 1 1).1 ⟨true, [1, 1, 2, 2], [1, 2, 3, 4]⟩
      ⟨true, [1, 1, 2, 2], [1, 2, 3, 4]⟩ ⟨true, [1, 1, 2, 2], [1, 2, 3, 4]⟩
      (by norm_num) (by norm_num)
  refine ⟨heq, by simp, ?_⟩
  have h := (helt 0 0 0 (by norm_num) (by norm_num) (by norm_num)).1
  norm_num [Tensor.elt, List.getD] at h ⊢
  exact h

/-- C5: `yuv_420_to_444` raises the `ValueError` (the specification's
`InvalidTriple`) exactly when the input collection does not have exactly 3
elements or some element is not a tensor, and that is its only error. -/
theorem claim_C5 (yuv : List Val) (rt : Bool) :
    ((∃ e, yuv_420_to_444 yuv rt = Except.error e)
      ↔ (yuv.length ≠ 3 ∨ ∃ c ∈ yuv, c.isTensor = false))
    ∧ ∀ e, yuv_420_to_444 yuv rt = Except.error e
        → e = PyErr.valueError "Expected a tuple of 3 torch tensors" := by
  by_cases hcond : (yuv.length != 3 || yuv.any fun c => ! c.isTensor) = true
  · have heq : yuv_420_to_444 yuv rt
        = Except.error (PyErr.valueError "Expected a tuple of 3 torch tensors") := by
      unfold yuv_420_to_444
      rw [if_pos hcond]
    refine ⟨⟨fun _ => ?_, fun _ => ⟨_, heq⟩⟩, fun e he => ?_⟩
    · simpa using hcond
    · rw [heq] at he
      exact (Except.error.inj he).symm
  · have hcond2 : yuv.length = 3 ∧ ∀ c ∈ yuv, c.isTensor = true := by
      simpa using hcond
    obtain ⟨hlen, hall⟩ := hcond2
    match yuv, hlen with
    | [c1, c2, c3], _ =>
      have h1 := hall c1 (by simp)
      have h2 := hall c2 (by simp)
      have h3 := hall c3 (by simp)
      match c1, c2, c3, h1, h2, h3 with
      | Val.tens y, Val.tens u, Val.tens v, _, _, _ =>
        have hok := yuv_420_to_444_tensors y u v rt
        constructor
        · constructor
          · intro ⟨e, he⟩
            rw [hok] at he
            cases rt <;> simp at he
          · intro hr
            rcases hr with hr | ⟨c, hc, hct⟩
            · simp at hr
            · simp only [List.mem_cons, List.not_mem_nil, or_false] at hc
              rcases hc with rfl | rfl | rfl <;> simp [Val.isTensor] at hct
        · intro e he
          rw [hok] at he
          cases rt <;> simp at he

/-- Witness for C5: a two-element collection is rejected with the triple
message. -/
theorem claim_C5_witness :
    yuv_420_to_444 [Val.num 1, Val.num 2] false
      = Except.error (PyErr.valueError "Expected a tuple of 3 torch tensors") := by
  obtain ⟨e, he⟩ := (claim_C5 [Val.num 1, Val.num 2] false).1.mpr (Or.inl (by simp))
  rw [he, (claim_C5 [Val.num 1, Val.num 2] false).2 e he]

/-- C6: on a valid (Y, U, V) triple of tensors, `yuv_420_to_444` with
`return_tuple = true` returns the triple with the original Y unchanged, and
with `return_tuple = false` returns the single tensor concatenating Y and
the upsampled U and V along axis 1, whose channel-axis length is 3. -/
theorem claim_C6 (y u v : Tensor) (n a b : Nat)
    (hy : y.shape = [n, 1, 2*a, 2*b]) (hu : u.shape = [n, 1, a, b])
    (hv : v.shape = [n, 1, a, b]) :
    yuv_420_to_444 [Val.tens y, Val.tens u, Val.tens v] true
      = Except.ok (Out444.triple y (interpolate2 u) (interpolate2 v))
    ∧ yuv_420_to_444 [Val.tens y, Val.tens u, Val.tens v] false
      = Except.ok (Out444.single (cat3 1 y (interpolate2 u) (interpolate2 v)))
    ∧ (cat3 1 y (interpolate2 u) (interpolate2 v)).shape.getD 1 0 = 3
    ∧ (cat3 1 y (interpolate2 u) (interpolate2 v)).shape = [n, 3, 2*a, 2*b]
    ∧ (interpolate2 u).shape = [n, 1, 2*a, 2*b]
    ∧ (interpolate2 v).shape = [n, 1, 2*a, 2*b] := by
  refine ⟨by simpa using yuv_420_to_444_tensors y u v true,
    by simpa using yuv_420_to_444_tensors y u v false, ?_, ?_, ?_, ?_⟩
  · simp [hy]
  · simp [hy]
  · simp [hu]
  · simp [hv]

/-- Witness for C6 at concrete tensors of shape (1,1,2,2) and (1,1,1,1). -/
theorem claim_C6_witness :
    yuv_420_to_444
        [Val.tens ⟨true, [1, 1, 2, 2], [1, 2, 3, 4]⟩,
          Val.tens ⟨true, [1, 1, 1, 1], [5]⟩, Val.tens ⟨true, [1, 1, 1, 1], [6]⟩] true
      = Except.ok (Out444.triple ⟨true, [1, 1, 2, 2], [1, 2, 3, 4]⟩
          (interpolate2 ⟨true, [1, 1, 1, 1], [5]⟩)
          (interpolate2 ⟨true, [1, 1, 1, 1], [6]⟩))
    ∧ (cat3 1 ⟨true, [1, 1, 2, 2], [1, 2, 3, 4]⟩
        (interpolate2 ⟨true, [1, 1, 1, 1], [5]⟩)
        (interpolate2 ⟨true, [1, 1, 1, 1], [6]⟩)).shape.getD 1 0 = 3 := by
  obtain ⟨h1, -, h3, -, -, -⟩ :=
    claim_C6 ⟨true, [1, 1, 2, 2], [1, 2, 3, 4]⟩ ⟨true, [1, 1, 1, 1], [5]⟩
      ⟨true, [1, 1, 1, 1], [6]⟩ 1 1 1 (by norm_num) (by norm_num) (by norm_num)
  exact ⟨h1, h3⟩

/-- C7: from a packed tensor of shape (N,3,8,8), `yuv_444_to_420` produces
chroma planes of shape (N,1,4,4), and feeding the resulting triple to
`yuv_420_to_444` produces chroma planes of shape (N,1,8,8), recovering the
original spatial resolution. -/
theorem claim_C7 (t : Tensor) (n : Nat) (hs : t.shape = [n, 3, 8, 8]) :
    (yuv_444_to_420 (YUVIn.packed t)).2.1.shape = [n, 1, 4, 4]
    ∧ (yuv_444_to_420 (YUVIn.packed t)).2.2.shape = [n, 1, 4, 4]
    ∧ ∃ yy uu vv,
        yuv_420_to_444
            [Val.tens (yuv_444_to_420 (YUVIn.packed t)).1,
              Val.tens (yuv_444_to_420 (YUVIn.packed t)).2.1,
              Val.tens (yuv_444_to_420 (YUVIn.packed t)).2.2] true
          = Except.ok (Out444.triple yy uu vv)
        ∧ uu.shape = [n, 1, 8, 8] ∧ vv.shape = [n, 1, 8, 8] := by
  refine ⟨by simp [yuv_444_to_420, hs], by simp [yuv_444_to_420, hs], ?_⟩
  refine ⟨_, _, _, by simpa using yuv_420_to_444_tensors _ _ _ true, ?_, ?_⟩
  · simp [yuv_444_to_420, hs]
  · simp [yuv_444_to_420, hs]

/-- Witness for C7 at a concrete tensor of shape (1,3,8,8). -/
theorem claim_C7_witness :
    (yuv_444_to_420 (YUVIn.packed ⟨true, [1, 3, 8, 8], []⟩)).2.1.shape = [1, 1, 4, 4]
    ∧ ∃ yy uu vv,
        yuv_420_to_444
            [Val.tens (yuv_444_to_420 (YUVIn.packed ⟨true, [1, 3, 8, 8], []⟩)).1,
              Val.tens (yuv_444_to_420 (YUVIn.packed ⟨true, [1, 3, 8, 8], []⟩)).2.1,
              Val.tens (yuv_444_to_420 (YUVIn.packed ⟨true, [1, 3, 8, 8], []⟩)).2.2] true
          = Except.ok (Out444.triple yy uu vv)
        ∧ uu.shape = [1, 1, 8, 8] ∧ vv.shape = [1, 1, 8, 8] := by
  obtain ⟨h1, -, h3⟩ := claim_C7 ⟨true, [1, 3, 8, 8], []⟩ 1 rfl
  exact ⟨h1, h3⟩
